import Mathlib

/-
  Verification development for the "Program Mais GEMS" recognition platform.

  The repository is a set of dashboard pages over a star schema:
  dim_hero, dim_pillar, dim_mission and fact_nomination.  The definitions
  below are a shallow embedding of the data-touching functions of those
  pages; each definition names the source function it embeds.  Stores
  (database tables) are modelled as lists of rows, and every write
  operation returns the pair (reported success flag, new store).
-/

namespace GemsBank

/-! ## Generic grouping and sorting machinery

pandas `DataFrame.groupby(keys)[col].sum()` (with its default key sorting)
is embedded as: collect the distinct keys in ascending order, then map each
key to the sum of the column over the rows having that key.
`Series.sort_values(ascending=False)` is embedded as a stable insertion
sort on the descending second component. -/

/-- Insert a key into a strictly ascending key list, skipping keys that are
already present. -/
def insert_sorted_key {β : Type} [DecidableEq β] (lt : β → β → Bool) (k : β) :
    List β → List β
  | [] => [k]
  | y :: l =>
    if k = y then y :: l
    else if lt k y then k :: y :: l
    else y :: insert_sorted_key lt k l

/-- The distinct keys of a list, in ascending `lt` order. -/
def sorted_keys {β : Type} [DecidableEq β] (lt : β → β → Bool) : List β → List β
  | [] => []
  | k :: ks => insert_sorted_key lt k (sorted_keys lt ks)

/-- `groupby(key)[val].sum()`: one row per distinct key (ascending key
order), carrying the sum of `val` over the rows with that key. -/
def group_sums {α β : Type} [DecidableEq β] (lt : β → β → Bool) (key : α → β)
    (val : α → Int) (l : List α) : List (β × Int) :=
  (sorted_keys lt (l.map key)).map fun k =>
    (k, ((l.filter fun r => decide (key r = k)).map val).sum)

/-- Stable insertion before the first element with a smaller-or-equal
second component; ties stay behind earlier elements. -/
def insert_desc {β : Type} (x : β × Int) : List (β × Int) → List (β × Int)
  | [] => [x]
  | y :: l => if y.2 ≤ x.2 then x :: y :: l else y :: insert_desc x l

/-- Stable sort by descending second component
(`sort_values(ascending=False)`). -/
def sort_desc {β : Type} : List (β × Int) → List (β × Int)
  | [] => []
  | x :: l => insert_desc x (sort_desc l)

/-! ## fact_nomination rows and the approval page

Embeds `update_nomination_status` from
`pages/4_Aprovacao da Nomeacao.py` (lines 95-119). -/

/-- A row of `fact_nomination`, as selected by `load_enriched_nominations`
and written by `insert_nomination`.  The table carries no reward column:
`crystals_reward` lives on `dim_mission` only. -/
structure Nomination where
  nomination_id : Nat
  nominator_id : Nat
  nominee_id : Nat
  mission_id : Nat
  justification : String
  image : Option String
  approved_flag : Bool
  refuse_flag : Bool
  deriving Repr, DecidableEq

/-- `update_nomination_status(nomination_id, status_to_update)`:
for target `approved` it runs
`UPDATE fact_nomination SET approved_flag = TRUE, refuse_flag = FALSE WHERE nomination_id = %s`,
for target `refused` the symmetric statement, and for any other target it
returns False without touching the store.  The UPDATE touches exactly the
rows whose `nomination_id` matches and the function then reports True,
whether or not any row matched. -/
def update_nomination_status (store : List Nomination) (nomination_id : Nat)
    (status_to_update : String) : Bool × List Nomination :=
  if status_to_update = "approved" then
    (true, store.map fun n =>
      if n.nomination_id = nomination_id then
        { n with approved_flag := true, refuse_flag := false }
      else n)
  else if status_to_update = "refused" then
    (true, store.map fun n =>
      if n.nomination_id = nomination_id then
        { n with refuse_flag := true, approved_flag := false }
      else n)
  else
    (false, store)

/-- A sequence of `Transition` calls on one nomination id, applied in
order. -/
def run_transitions (store : List Nomination) (nomination_id : Nat)
    (targets : List String) : List Nomination :=
  targets.foldl (fun s t => (update_nomination_status s nomination_id t).2) store

/-! ## The nomination page

Embeds `handle_submission`, `submit_nomination` and `insert_nomination`
from `pages/3_Pergaminho de Nomeacoes.py`.  The nominator, nominee, pillar
and mission come from `st.selectbox` widgets, so each is either unselected
(`None`) or one of the names loaded from `dim_hero` / `dim_mission`. -/

/-- A row of `dim_hero` as loaded by the nomination page. -/
structure Hero where
  hero_id : Nat
  hero_name : String
  hero_team : String
  deriving Repr, DecidableEq

/-- A row of the mission query of the nomination page
(`dim_mission` joined with `dim_pillar`). -/
structure Mission where
  mission_id : Nat
  mission_name : String
  mission_describe : String
  crystals_reward : Int
  pillar_name : String
  deriving Repr, DecidableEq

/-- Python truthiness of a selectbox value: `None` and the empty string
are falsy. -/
def pyTruthy : Option String → Bool
  | none => false
  | some s => decide (s ≠ "")

/-- Python `str.strip()`: drops whitespace from both ends. -/
def pyStrip (s : String) : String :=
  ⟨((s.data.dropWhile Char.isWhitespace).reverse.dropWhile Char.isWhitespace).reverse⟩

/-- `is_self_nomination = nomeador and nomeado and nomeador == nomeado`. -/
def is_self_nomination (nomeador nomeado : Option String) : Bool :=
  pyTruthy nomeador && pyTruthy nomeado && decide (nomeador = nomeado)

/-- `is_valid = all([nomeador, nomeado, pilar, missao, justificativa.strip()])
and not is_self_nomination`. -/
def is_valid_submission (nomeador nomeado pilar missao : Option String)
    (justificativa : String) : Bool :=
  pyTruthy nomeador && pyTruthy nomeado && pyTruthy pilar && pyTruthy missao &&
    decide (pyStrip justificativa ≠ "") && !is_self_nomination nomeador nomeado

/-- The row built by
`INSERT INTO fact_nomination (nominator_id, nominee_id, mission_id, justification, image)`.
Modelled from the spec: the `fact_nomination` schema itself (column
defaults and id generation) is not under src/; per the spec, a freshly
created nomination has status `pending`, which the approval page reads as
`approved_flag == False and refuse_flag == False`, so both flags default
to false and the new row gets a fresh serial id.  No reward column exists
on the row. -/
def new_nomination (store : List Nomination) (nominator_id nominee_id mission_id : Nat)
    (justification : String) (image : Option String) : Nomination :=
  { nomination_id := store.length + 1
    nominator_id := nominator_id
    nominee_id := nominee_id
    mission_id := mission_id
    justification := justification
    image := image
    approved_flag := false
    refuse_flag := false }

/-- `insert_nomination`: a single-row INSERT followed by commit; on
success it returns True. -/
def insert_nomination (store : List Nomination) (nominator_id nominee_id mission_id : Nat)
    (justification : String) (image : Option String) : Bool × List Nomination :=
  (true, store ++ [new_nomination store nominator_id nominee_id mission_id justification image])

/-- Outcome of a create attempt.  `validationError` is the rejected
submission (the page blocks the insert and warns); `lookupFailure` is the
uncaught lookup error Python would raise if a selected name resolved to no
row (unreachable through the selectboxes, whose options are exactly the
loaded names). -/
inductive CreateResult where
  | success
  | validationError
  | lookupFailure
  deriving Repr, DecidableEq

/-- `submit_nomination`: resolves the selected hero and mission names to
ids (`df.loc[...].iloc[0]`, i.e. the first matching row) and inserts the
nomination. -/
def submit_nomination (store : List Nomination) (nomeador_nome nomeado_nome missao_nome : String)
    (justificativa : String) (anexo : Option String)
    (df_herois : List Hero) (df_missoes : List Mission) : CreateResult × List Nomination :=
  match df_herois.find? (fun h => decide (h.hero_name = nomeador_nome)),
        df_herois.find? (fun h => decide (h.hero_name = nomeado_nome)),
        df_missoes.find? (fun m => decide (m.mission_name = missao_nome)) with
  | some hA, some hB, some m =>
    let r := insert_nomination store hA.hero_id hB.hero_id m.mission_id justificativa anexo
    (if r.1 then .success else .validationError, r.2)
  | _, _, _ => (.lookupFailure, store)

/-- `handle_submission`: the submit button is disabled unless `is_valid`,
so an invalid combination never reaches `submit_nomination`; a valid one
is passed on with the selected names unwrapped. -/
def handle_submission (store : List Nomination) (nomeador nomeado pilar missao : Option String)
    (justificativa : String) (anexo : Option String)
    (df_herois : List Hero) (df_missoes : List Mission) : CreateResult × List Nomination :=
  if is_valid_submission nomeador nomeado pilar missao justificativa then
    submit_nomination store (nomeador.getD "") (nomeado.getD "") (missao.getD "")
      justificativa anexo df_herois df_missoes
  else
    (.validationError, store)

/-- `crystals_reward` of a nomination as every dashboard reads it: live
from `dim_mission` through the JOIN on `mission_id`; the nomination row
itself stores no reward. -/
def derived_reward (n : Nomination) (missions : List Mission) : Option Int :=
  (missions.find? fun m => decide (m.mission_id = n.mission_id)).map (·.crystals_reward)

/-! ## The dashboard page

Embeds the aggregations of `pages/1_Salao dos Herois.py`:
`show_kpi_cards`, `show_hero_ranking` and `show_sankey_diagram`, over the
denormalized rows produced by `load_dashboard_data`. -/

/-- A row of the dashboard query: the nomination joined with the nominee
(`hero_name`, `hero_team`), the nominator, the mission and the pillar. -/
structure DashRow where
  hero_name : String
  hero_team : String
  nominator_name : String
  mission_name : String
  crystals_reward : Int
  pillar_name : String
  deriving Repr, DecidableEq

/-- The code point of a character, as the unit of string comparison. -/
def charN (c : Char) : Nat := c.val.toNat

/-- Lexicographic comparison of character lists by code point: exactly
how pandas (Python) orders the string keys of a grouped index. -/
def strLtCore : List Char → List Char → Bool
  | [], [] => false
  | [], _ :: _ => true
  | _ :: _, [] => false
  | a :: as, b :: bs =>
    if charN a < charN b then true
    else if charN b < charN a then false
    else strLtCore as bs

/-- Ascending comparison on single string keys. -/
def strLtb (a b : String) : Bool :=
  strLtCore a.data b.data

/-- Ascending lexicographic comparison on two-column keys, as the
`groupby` of two columns sorts its key index. -/
def pairLtb (a b : String × String) : Bool :=
  strLtb a.1 b.1 || (decide (a.1 = b.1) && strLtb a.2 b.2)

/-- `total_crystals = int(df["crystals_reward"].sum())` of
`show_kpi_cards`. -/
def kpi_total_crystals (df : List DashRow) : Int :=
  (df.map (·.crystals_reward)).sum

/-- `df.groupby(["hero_name", "hero_team"])["crystals_reward"].sum()` of
`show_hero_ranking`: one row per (nominee, team), ascending key order. -/
def ranking_groups (df : List DashRow) : List ((String × String) × Int) :=
  group_sums pairLtb (fun r => (r.hero_name, r.hero_team)) (·.crystals_reward) df

/-- `show_hero_ranking`: the grouped totals sorted by descending total
reward (`sort_values(ascending=False)`). -/
def ranking (df : List DashRow) : List ((String × String) × Int) :=
  sort_desc (ranking_groups df)

/-! ### The Sankey flow graph (`show_sankey_diagram`) -/

/-- `df.groupby(["nominator_name", "pillar_name"])["crystals_reward"].sum()`. -/
def np_pairs (df : List DashRow) : List ((String × String) × Int) :=
  group_sums pairLtb (fun r => (r.nominator_name, r.pillar_name)) (·.crystals_reward) df

/-- `df.groupby(["pillar_name", "hero_name"])["crystals_reward"].sum()`. -/
def pn_pairs (df : List DashRow) : List ((String × String) × Int) :=
  group_sums pairLtb (fun r => (r.pillar_name, r.hero_name)) (·.crystals_reward) df

/-- `df.groupby("nominator_name")["crystals_reward"].sum().nlargest(top_n)`:
stable descending order, first `top_n` kept. -/
def top_nominators (df : List DashRow) (top_n : Nat) : List String :=
  ((sort_desc (group_sums strLtb (·.nominator_name) (·.crystals_reward) df)).take top_n).map (·.1)

/-- `df.groupby("hero_name")["crystals_reward"].sum().nlargest(top_n)`. -/
def top_nominees (df : List DashRow) (top_n : Nat) : List String :=
  ((sort_desc (group_sums strLtb (·.hero_name) (·.crystals_reward) df)).take top_n).map (·.1)

/-- `nominator_pillar[nominator_pillar["nominator_name"].isin(nominators)]`. -/
def np_filtered (df : List DashRow) (top_n : Nat) : List ((String × String) × Int) :=
  (np_pairs df).filter fun kp => decide (kp.1.1 ∈ top_nominators df top_n)

/-- `pillar_nominee[pillar_nominee["hero_name"].isin(nominees)]`. -/
def pn_filtered (df : List DashRow) (top_n : Nat) : List ((String × String) × Int) :=
  (pn_pairs df).filter fun kp => decide (kp.1.2 ∈ top_nominees df top_n)

/-- The `pillars` list: pillar totals of the retained nominator edges,
sorted descending (`pillar_sums.sort_values(ascending=False)`); empty
when no nominator edge survives. -/
def pillars_list (df : List DashRow) (top_n : Nat) : List String :=
  (sort_desc (group_sums strLtb (fun kp => kp.1.2) (fun kp => kp.2) (np_filtered df top_n))).map (·.1)

/-- `pillar_nominee_filtered[pillar_nominee_filtered["pillar_name"].isin(pillars)]`. -/
def pn_filtered2 (df : List DashRow) (top_n : Nat) : List ((String × String) × Int) :=
  (pn_filtered df top_n).filter fun kp => decide (kp.1.1 ∈ pillars_list df top_n)

/-- The zero-width space used to disambiguate nominee display labels. -/
def zwsp : String := "\u200B"

/-- `nominee if i == 0 else nominee + ZWSP * (i + 1)`. -/
def mark_nominee (name : String) (i : Nat) : String :=
  if i = 0 then name else name ++ String.join (List.replicate (i + 1) zwsp)

/-- The `unique_nominees` list of display labels. -/
def unique_nominees (df : List DashRow) (top_n : Nat) : List String :=
  (top_nominees df top_n).enum.map fun p => mark_nominee p.2 p.1

/-- `all_nodes = list(nominators) + list(pillars) + unique_nominees`;
membership in `node_map` is membership here. -/
def all_nodes (df : List DashRow) (top_n : Nat) : List String :=
  top_nominators df top_n ++ pillars_list df top_n ++ unique_nominees df top_n

/-- The first `unique_nominees` label whose original name is `name`
(the `next(...)` scan over `original_nominee_map.items()`). -/
def unique_for (df : List DashRow) (top_n : Nat) (name : String) : Option String :=
  (((unique_nominees df top_n).zip (top_nominees df top_n)).find? fun p =>
    decide (p.2 = name)).map (·.1)

/-- The retained nominator-to-pillar links: each row of
`nominator_pillar_filtered` whose endpoints are both in `node_map`. -/
def edges1 (df : List DashRow) (top_n : Nat) : List ((String × String) × Int) :=
  (np_filtered df top_n).filter fun kp =>
    decide (kp.1.1 ∈ all_nodes df top_n) && decide (kp.1.2 ∈ all_nodes df top_n)

/-- The retained pillar-to-nominee links: each row of the twice-filtered
`pillar_nominee` table whose pillar is in `node_map` and whose nominee
resolves to a display label that is in `node_map`; the link target is that
label. -/
def edges2 (df : List DashRow) (top_n : Nat) : List ((String × String) × Int) :=
  (pn_filtered2 df top_n).filterMap fun kp =>
    if kp.1.1 ∈ all_nodes df top_n then
      match unique_for df top_n kp.1.2 with
      | some u => if u ∈ all_nodes df top_n then some ((kp.1.1, u), kp.2) else none
      | none => none
    else none

/-- The aggregated flow-graph data handed to the plotting library. -/
structure SankeyData where
  nominators : List String
  pillars : List String
  nominees : List String
  links1 : List ((String × String) × Int)
  links2 : List ((String × String) × Int)
  deriving Repr, DecidableEq

/-- `show_sankey_diagram(df, top_n)`: `none` is the explicitly-empty
outcome (the page prints an informational message and returns before
building any figure), produced when the input is empty or when no link at
all survives the top-N restriction (`if not sources: return`). -/
def show_sankey_diagram (df : List DashRow) (top_n : Nat) : Option SankeyData :=
  if df = [] then none
  else if edges1 df top_n = [] ∧ edges2 df top_n = [] then none
  else some
    { nominators := top_nominators df top_n
      pillars := pillars_list df top_n
      nominees := top_nominees df top_n
      links1 := edges1 df top_n
      links2 := edges2 df top_n }

/-! ## The hero administration page

Embeds `add_hero`, `update_hero` and `delete_hero` from
`pages/5_Gestao de Herois.py`. -/

/-- The next serial id handed out by the store. -/
def next_hero_id (store : List Hero) : Nat :=
  store.foldl (fun m h => max m h.hero_id) 0 + 1

/-- `add_hero(name, team)`:
`INSERT INTO dim_hero (hero_name, hero_team) VALUES (%s, %s)` through
`execute_query`, which reports False when the store rejects the write.
Modelled from the spec: the `dim_hero` schema is not under src/; per the
spec (`Name uniqueness enforced at write time`), the store rejects an
INSERT whose name is already taken, and `execute_query` then rolls back
and returns False. -/
def add_hero (store : List Hero) (name team : String) : Bool × List Hero :=
  if store.any fun h => decide (h.hero_name = name) then
    (false, store)
  else
    (true, store ++ [{ hero_id := next_hero_id store, hero_name := name, hero_team := team }])

/-- `update_hero(hero_id, name, team)`:
`UPDATE dim_hero SET hero_name = %s, hero_team = %s WHERE hero_id = %s`.
Modelled from the spec: as for `add_hero`, the store rejects an UPDATE
that would give the row a name already belonging to a different hero, and
`execute_query` reports False. -/
def update_hero (store : List Hero) (hero_id : Nat) (name team : String) : Bool × List Hero :=
  if store.any fun h => decide (h.hero_id ≠ hero_id ∧ h.hero_name = name) then
    (false, store)
  else
    (true, store.map fun h =>
      if h.hero_id = hero_id then { h with hero_name := name, hero_team := team } else h)

/-- `delete_hero(hero_id)`: `DELETE FROM dim_hero WHERE hero_id = %s`. -/
def delete_hero (store : List Hero) (hero_id : Nat) : Bool × List Hero :=
  (true, store.filter fun h => decide (h.hero_id ≠ hero_id))

/-- One administrative hero write. -/
inductive HeroOp where
  | add (name team : String)
  | upd (hero_id : Nat) (name team : String)
  | del (hero_id : Nat)
  deriving Repr, DecidableEq

/-- A sequence of hero writes applied in order. -/
def run_hero_ops (store : List Hero) (ops : List HeroOp) : List Hero :=
  ops.foldl
    (fun s op =>
      match op with
      | .add name team => (add_hero s name team).2
      | .upd hero_id name team => (update_hero s hero_id name team).2
      | .del hero_id => (delete_hero s hero_id).2)
    store

/-- The hero-store invariant: ids and names are pairwise distinct. -/
def HeroInv (store : List Hero) : Prop :=
  store.Pairwise fun a b => a.hero_id ≠ b.hero_id ∧ a.hero_name ≠ b.hero_name

instance (store : List Hero) : Decidable (HeroInv store) :=
  List.instDecidablePairwise store

/-! ## Auxiliary definitions used to state the claims -/

/-- The rows of a list whose total equals `v`: the tied block at total
`v`. -/
def ties_at {β : Type} (v : Int) (l : List (β × Int)) : List (β × Int) :=
  l.filter fun r => decide (r.2 = v)

/-- Sum of rewards over the records with the given nominator and pillar,
with no restriction on the nominee. -/
def pair_sum_np (df : List DashRow) (a p : String) : Int :=
  ((df.filter fun r => decide (r.nominator_name = a ∧ r.pillar_name = p)).map
    (·.crystals_reward)).sum

/-- Sum of rewards over the records with the given pillar and nominee,
with no restriction on the nominator. -/
def pair_sum_pn (df : List DashRow) (p h : String) : Int :=
  ((df.filter fun r => decide (r.pillar_name = p ∧ r.hero_name = h)).map
    (·.crystals_reward)).sum

/-- The nominator-to-pillar edge weight as the claim words it: the sum of
rewards for the (nominator, pillar) pair restricted to records whose
nominator is in the top-N nominator set AND whose nominee is in the top-N
nominee set.  Stated for comparison with the code, which applies no
nominee restriction to this tier. -/
def claimed_np_edge_weight (df : List DashRow) (top_n : Nat) (a p : String) : Int :=
  ((df.filter fun r => decide (r.nominator_name = a ∧ r.pillar_name = p ∧
      r.nominator_name ∈ top_nominators df top_n ∧
      r.hero_name ∈ top_nominees df top_n)).map (·.crystals_reward)).sum

/-- The (nominee, team) keys in order of first appearance in the input. -/
def first_appearance_keys (df : List DashRow) : List (String × String) :=
  df.foldl
    (fun acc r =>
      if (r.hero_name, r.hero_team) ∈ acc then acc else acc ++ [(r.hero_name, r.hero_team)])
    []

/-- The ranking as the claim words it: group by (nominee, team) in order
of first appearance, sum rewards, then stable-sort by descending total so
that tied groups keep their first-appearance order.  Stated for comparison
with the code, whose grouping step orders keys alphabetically before the
sort. -/
def ranking_first_appearance (df : List DashRow) : List ((String × String) × Int) :=
  sort_desc ((first_appearance_keys df).map fun k =>
    (k, ((df.filter fun r => decide ((r.hero_name, r.hero_team) = k)).map
      (·.crystals_reward)).sum))

/-- Two tied nominees whose alphabetical order reverses their
first-appearance order. -/
def ties_example : List DashRow :=
  [{ hero_name := "Zara", hero_team := "T", nominator_name := "N", mission_name := "M",
     crystals_reward := 5, pillar_name := "P" },
   { hero_name := "Ana", hero_team := "T", nominator_name := "N", mission_name := "M",
     crystals_reward := 5, pillar_name := "P" }]

/-- One nominator, one pillar, two nominees of which only one is in the
top-1 nominee set. -/
def sankey_example : List DashRow :=
  [{ hero_name := "X", hero_team := "T", nominator_name := "A", mission_name := "M",
     crystals_reward := 5, pillar_name := "P" },
   { hero_name := "Y", hero_team := "T", nominator_name := "A", mission_name := "M",
     crystals_reward := 7, pillar_name := "P" }]

/-! ## Lemmas about the approval workflow -/

/-- Unfolding of `update_nomination_status` at the target `approved`. -/
lemma update_status_approved (store : List Nomination) (nid : Nat) :
    update_nomination_status store nid "approved" =
      (true, store.map fun n =>
        if n.nomination_id = nid then
          { n with approved_flag := true, refuse_flag := false }
        else n) := by
  simp [update_nomination_status]

/-- Unfolding of `update_nomination_status` at the target `refused`. -/
lemma update_status_refused (store : List Nomination) (nid : Nat) :
    update_nomination_status store nid "refused" =
      (true, store.map fun n =>
        if n.nomination_id = nid then
          { n with refuse_flag := true, approved_flag := false }
        else n) := by
  simp [update_nomination_status]

/-- After one `Transition` with a valid target, every row carrying the
transitioned id has exclusive status flags. -/
lemma flags_exclusive_after_update (store : List Nomination) (nid : Nat) (t : String)
    (ht : t = "approved" ∨ t = "refused") :
    ∀ n ∈ (update_nomination_status store nid t).2, n.nomination_id = nid →
      ¬(n.approved_flag = true ∧ n.refuse_flag = true) := by
  intro n hn hid
  rcases ht with h | h <;> subst h
  · rw [update_status_approved, List.mem_map] at hn
    obtain ⟨m, _, rfl⟩ := hn
    by_cases hmid : m.nomination_id = nid
    · simp [hmid]
    · simp only [if_neg hmid] at hid
      exact absurd hid hmid
  · rw [update_status_refused, List.mem_map] at hn
    obtain ⟨m, _, rfl⟩ := hn
    by_cases hmid : m.nomination_id = nid
    · simp [hmid]
    · simp only [if_neg hmid] at hid
      exact absurd hid hmid

/-- `run_transitions` peels off its first target. -/
lemma run_transitions_cons (store : List Nomination) (nid : Nat) (t : String)
    (ts : List String) :
    run_transitions store nid (t :: ts) =
      run_transitions (update_nomination_status store nid t).2 nid ts := rfl

/-- **C1.** For every nomination id and every nonempty sequence of
`Transition` calls on it with targets in {approved, refused}, after the
sequence the two status flags of every row with that id are mutually
exclusive: `Transition(id, approved)` sets `approved_flag` true and
`refuse_flag` false, `Transition(id, refused)` the converse, so the two
flags are never both true after any such sequence. -/
theorem C1_transition_mutual_exclusion (store : List Nomination) (nid : Nat)
    (targets : List String) (hne : targets ≠ [])
    (hval : ∀ t ∈ targets, t = "approved" ∨ t = "refused") :
    ∀ n ∈ run_transitions store nid targets, n.nomination_id = nid →
      ¬(n.approved_flag = true ∧ n.refuse_flag = true) := by
  induction targets generalizing store with
  | nil => exact absurd rfl hne
  | cons t ts ih =>
    rw [run_transitions_cons]
    cases ts with
    | nil =>
      exact flags_exclusive_after_update store nid t (hval t (by simp))
    | cons t2 ts2 =>
      exact ih _ (by simp) fun u hu => hval u (List.mem_cons_of_mem t hu)

/-- Witness for C1: one stored row, approved then refused; the resulting
row is refused only, so the flags are not both true. -/
theorem C1_transition_mutual_exclusion_witness :
    ¬(({ nomination_id := 7, nominator_id := 1, nominee_id := 2, mission_id := 3,
         justification := "x", image := none, approved_flag := false,
         refuse_flag := true } : Nomination).approved_flag = true ∧
      ({ nomination_id := 7, nominator_id := 1, nominee_id := 2, mission_id := 3,
         justification := "x", image := none, approved_flag := false,
         refuse_flag := true } : Nomination).refuse_flag = true) :=
  C1_transition_mutual_exclusion
    [{ nomination_id := 7, nominator_id := 1, nominee_id := 2, mission_id := 3,
       justification := "x", image := none, approved_flag := false, refuse_flag := false }]
    7 ["approved", "refused"] (by decide) (by decide) _ (by decide) (by decide)

/-- **C2 counterexample.** On a store without the requested id,
`Transition` does not fail with any not-found error: it reports success.
Here the store is empty, id 1 does not exist, and the call returns True. -/
theorem C2_counterexample :
    (∀ n ∈ ([] : List Nomination), n.nomination_id ≠ 1) ∧
    update_nomination_status [] 1 "approved" = (true, []) :=
  ⟨by simp, rfl⟩

/-- **C2 amended.** For every nomination_id that does not exist in the
store, `Transition(nomination_id, target)` with a target in
{approved, refused} still reports success (the UPDATE matches no row, the
commit succeeds and the function returns True) and leaves the store
unchanged; no NotFoundError is raised. -/
theorem C2_amended_missing_id_reports_success (store : List Nomination) (nid : Nat)
    (status : String) (hmiss : ∀ n ∈ store, n.nomination_id ≠ nid)
    (hs : status = "approved" ∨ status = "refused") :
    update_nomination_status store nid status = (true, store) := by
  have hmap : ∀ f : Nomination → Nomination,
      (∀ n ∈ store, f n = n) → store.map f = store := by
    intro f hf
    conv_rhs => rw [← List.map_id store]
    exact List.map_congr_left fun n hn => (hf n hn).trans rfl
  rcases hs with h | h <;> subst h
  · rw [update_status_approved, hmap _ fun n hn => if_neg (hmiss n hn)]
  · rw [update_status_refused, hmap _ fun n hn => if_neg (hmiss n hn)]

/-- Witness for C2 amended: one stored row with a different id. -/
theorem C2_amended_missing_id_reports_success_witness :
    update_nomination_status
      [{ nomination_id := 2, nominator_id := 1, nominee_id := 3, mission_id := 4,
         justification := "y", image := none, approved_flag := false, refuse_flag := false }]
      1 "refused" =
      (true,
        [{ nomination_id := 2, nominator_id := 1, nominee_id := 3, mission_id := 4,
           justification := "y", image := none, approved_flag := false, refuse_flag := false }]) :=
  C2_amended_missing_id_reports_success _ 1 "refused" (by decide) (Or.inr rfl)

/-- **C10.** For every nomination_id and every target status other than
`approved` and `refused`, the status update performs no write, leaves
every nomination unchanged and returns False rather than raising. -/
theorem C10_invalid_status_noop (store : List Nomination) (nid : Nat) (status : String)
    (h1 : status ≠ "approved") (h2 : status ≠ "refused") :
    update_nomination_status store nid status = (false, store) := by
  simp [update_nomination_status, h1, h2]

/-- Witness for C10 at the target `pending`. -/
theorem C10_invalid_status_noop_witness :
    update_nomination_status [] 5 "pending" = (false, []) :=
  C10_invalid_status_noop [] 5 "pending" (by decide) (by decide)

/-! ## Lemmas about nomination creation -/

/-- **C3.** Whenever a precondition of `Create` is unmet — the nominator
and nominee coincide, a hero, pillar or mission reference is unresolved
(the selectbox options are exactly the loaded names, so an unresolved
reference is an unselected one), or the justification is empty after
trimming — the submission is rejected as a validation failure and no
nomination row is inserted, regardless of the other fields. -/
theorem C3_invalid_submission_rejected (store : List Nomination)
    (nomeador nomeado pilar missao : Option String) (justificativa : String)
    (anexo : Option String) (df_herois : List Hero) (df_missoes : List Mission)
    (h : is_self_nomination nomeador nomeado = true ∨ nomeador = none ∨ nomeado = none ∨
      pilar = none ∨ missao = none ∨ pyStrip justificativa = "") :
    handle_submission store nomeador nomeado pilar missao justificativa anexo
      df_herois df_missoes = (.validationError, store) := by
  have hval : is_valid_submission nomeador nomeado pilar missao justificativa = false := by
    rcases h with h | h | h | h | h | h <;> simp [is_valid_submission, pyTruthy, h]
  simp [handle_submission, hval]

/-- Witness for C3: a self-nomination with every other field present. -/
theorem C3_invalid_submission_rejected_witness :
    handle_submission [] (some "Ana") (some "Ana") (some "Pilar A") (some "Missao")
      "fez algo notavel" none
      [{ hero_id := 1, hero_name := "Ana", hero_team := "T" }]
      [{ mission_id := 1, mission_name := "Missao", mission_describe := "d",
         crystals_reward := 10, pillar_name := "Pilar A" }] =
      (.validationError, []) :=
  C3_invalid_submission_rejected [] (some "Ana") (some "Ana") (some "Pilar A")
    (some "Missao") "fez algo notavel" none _ _ (Or.inl (by decide))

/-- **C4.** For every valid `Create` input — selected nominator, nominee,
pillar and mission, nominator distinct from nominee, justification
non-empty after trimming, with the selected names resolving to rows —
`Create` succeeds and appends exactly one new nomination row, that row has
status pending (both flags false), and no crystal reward is copied onto
it: its reward is derived live from whatever mission table it is later
joined against. -/
theorem C4_valid_create_pending_no_reward_copy (store : List Nomination)
    (a b pl mi justificativa : String) (anexo : Option String)
    (df_herois : List Hero) (df_missoes : List Mission) (hA hB : Hero) (m : Mission)
    (ha : a ≠ "") (hb : b ≠ "") (hpl : pl ≠ "") (hmi : mi ≠ "")
    (hj : pyStrip justificativa ≠ "") (hab : a ≠ b)
    (hfa : df_herois.find? (fun h => decide (h.hero_name = a)) = some hA)
    (hfb : df_herois.find? (fun h => decide (h.hero_name = b)) = some hB)
    (hfm : df_missoes.find? (fun mm => decide (mm.mission_name = mi)) = some m) :
    handle_submission store (some a) (some b) (some pl) (some mi) justificativa anexo
        df_herois df_missoes =
      (.success,
        store ++ [new_nomination store hA.hero_id hB.hero_id m.mission_id justificativa anexo]) ∧
    (new_nomination store hA.hero_id hB.hero_id m.mission_id justificativa anexo).approved_flag
        = false ∧
    (new_nomination store hA.hero_id hB.hero_id m.mission_id justificativa anexo).refuse_flag
        = false ∧
    ∀ missions : List Mission,
      derived_reward (new_nomination store hA.hero_id hB.hero_id m.mission_id justificativa anexo)
          missions =
        (missions.find? fun mm => decide (mm.mission_id = m.mission_id)).map (·.crystals_reward) := by
  refine ⟨?_, rfl, rfl, fun missions => rfl⟩
  have hval : is_valid_submission (some a) (some b) (some pl) (some mi) justificativa = true := by
    simp [is_valid_submission, pyTruthy, is_self_nomination, ha, hb, hpl, hmi, hj, hab]
  simp [handle_submission, hval, submit_nomination, hfa, hfb, hfm, insert_nomination]

/-- Witness for C4: Ana nominates Bruno for a 10-crystal mission. -/
theorem C4_valid_create_pending_no_reward_copy_witness :
    handle_submission [] (some "Ana") (some "Bruno") (some "Pilar A") (some "Missao")
        "ajudou a equipe" none
        [{ hero_id := 1, hero_name := "Ana", hero_team := "T" },
         { hero_id := 2, hero_name := "Bruno", hero_team := "T" }]
        [{ mission_id := 3, mission_name := "Missao", mission_describe := "d",
           crystals_reward := 10, pillar_name := "Pilar A" }] =
      (.success, [] ++ [new_nomination [] 1 2 3 "ajudou a equipe" none]) ∧
    (new_nomination [] 1 2 3 "ajudou a equipe" none).approved_flag = false ∧
    (new_nomination [] 1 2 3 "ajudou a equipe" none).refuse_flag = false ∧
    ∀ missions : List Mission,
      derived_reward (new_nomination [] 1 2 3 "ajudou a equipe" none) missions =
        (missions.find? fun mm => decide (mm.mission_id = 3)).map (·.crystals_reward) :=
  C4_valid_create_pending_no_reward_copy [] "Ana" "Bruno" "Pilar A" "Missao"
    "ajudou a equipe" none _ _
    { hero_id := 1, hero_name := "Ana", hero_team := "T" }
    { hero_id := 2, hero_name := "Bruno", hero_team := "T" }
    { mission_id := 3, mission_name := "Missao", mission_describe := "d",
      crystals_reward := 10, pillar_name := "Pilar A" }
    (by decide) (by decide) (by decide) (by decide) (by decide) (by decide)
    (by decide) (by decide) (by decide)

/-! ## Lemmas about hero administration -/

/-- The running maximum in `next_hero_id` dominates its seed. -/
lemma le_foldl_max_hero (store : List Hero) (init : Nat) :
    init ≤ store.foldl (fun m h => max m h.hero_id) init := by
  induction store generalizing init with
  | nil => exact le_refl _
  | cons h t ih => exact le_trans (le_max_left _ _) (ih (max init h.hero_id))

/-- Every stored id is dominated by the running maximum. -/
lemma hero_id_le_foldl_max (store : List Hero) :
    ∀ (init : Nat) (h : Hero), h ∈ store →
      h.hero_id ≤ store.foldl (fun m h => max m h.hero_id) init := by
  induction store with
  | nil => intro init h hmem; cases hmem
  | cons x t ih =>
    intro init h hmem
    rcases List.mem_cons.1 hmem with rfl | hmem2
    · exact le_trans (le_max_right _ _) (le_foldl_max_hero t _)
    · exact ih _ h hmem2

/-- Every stored id is below the next serial id. -/
lemma hero_id_lt_next (store : List Hero) (h : Hero) (hmem : h ∈ store) :
    h.hero_id < next_hero_id store :=
  Nat.lt_succ_of_le (hero_id_le_foldl_max store 0 h hmem)

/-- `add_hero` preserves the hero-store invariant. -/
lemma add_hero_preserves (store : List Hero) (name team : String) (hinv : HeroInv store) :
    HeroInv (add_hero store name team).2 := by
  by_cases hdup : (store.any fun h => decide (h.hero_name = name)) = true
  · unfold add_hero
    rw [if_pos hdup]
    exact hinv
  · unfold add_hero
    rw [if_neg hdup]
    simp only [List.any_eq_true, decide_eq_true_eq, not_exists, not_and] at hdup
    rw [HeroInv, List.pairwise_append]
    refine ⟨hinv, List.pairwise_singleton _ _, ?_⟩
    intro a ha b hb
    rw [List.mem_singleton] at hb
    subst hb
    exact ⟨Nat.ne_of_lt (hero_id_lt_next store a ha), hdup a ha⟩

/-- `update_hero` preserves the hero-store invariant. -/
lemma update_hero_preserves (store : List Hero) (hero_id : Nat) (name team : String)
    (hinv : HeroInv store) : HeroInv (update_hero store hero_id name team).2 := by
  by_cases hdup : (store.any fun h => decide (h.hero_id ≠ hero_id ∧ h.hero_name = name)) = true
  · unfold update_hero
    rw [if_pos hdup]
    exact hinv
  · unfold update_hero
    rw [if_neg hdup]
    simp only [List.any_eq_true, decide_eq_true_eq, not_exists, not_and] at hdup
    rw [HeroInv, List.pairwise_map]
    refine List.Pairwise.imp_of_mem ?_ hinv
    intro a b ha hb hab
    have hid : ∀ c : Hero,
        (if c.hero_id = hero_id then { c with hero_name := name, hero_team := team }
          else c).hero_id = c.hero_id := by
      intro c
      by_cases h : c.hero_id = hero_id <;> simp [h]
    refine ⟨by rw [hid a, hid b]; exact hab.1, ?_⟩
    by_cases h1 : a.hero_id = hero_id <;> by_cases h2 : b.hero_id = hero_id
    · exact absurd (h1.trans h2.symm) hab.1
    · rw [if_pos h1, if_neg h2]
      exact fun heq => hdup b hb h2 heq.symm
    · rw [if_neg h1, if_pos h2]
      exact fun heq => hdup a ha h1 heq
    · rw [if_neg h1, if_neg h2]
      exact hab.2

/-- `delete_hero` preserves the hero-store invariant. -/
lemma delete_hero_preserves (store : List Hero) (hero_id : Nat) (hinv : HeroInv store) :
    HeroInv (delete_hero store hero_id).2 :=
  List.Pairwise.sublist (List.filter_sublist _) hinv

/-- **C9.** Hero-name uniqueness is enforced at write time: starting from
a well-formed store (distinct ids, distinct names), after every sequence
of hero writes the names remain pairwise distinct, and in every reachable
store an `add` or `update` that would give a row a name already belonging
to a different hero is rejected with False and leaves the store
unchanged. -/
theorem C9_hero_name_uniqueness (init : List Hero) (ops : List HeroOp) (hinv : HeroInv init) :
    HeroInv (run_hero_ops init ops) ∧
    (∀ name team, (∃ h ∈ run_hero_ops init ops, h.hero_name = name) →
      add_hero (run_hero_ops init ops) name team = (false, run_hero_ops init ops)) ∧
    (∀ hero_id name team,
      (∃ h ∈ run_hero_ops init ops, h.hero_id ≠ hero_id ∧ h.hero_name = name) →
      update_hero (run_hero_ops init ops) hero_id name team =
        (false, run_hero_ops init ops)) := by
  have hrun : HeroInv (run_hero_ops init ops) := by
    induction ops generalizing init with
    | nil => exact hinv
    | cons op ops ih =>
      cases op with
      | add name team => exact ih _ (add_hero_preserves init name team hinv)
      | upd hero_id name team => exact ih _ (update_hero_preserves init hero_id name team hinv)
      | del hero_id => exact ih _ (delete_hero_preserves init hero_id hinv)
  refine ⟨hrun, ?_, ?_⟩
  · intro name team ⟨h, hmem, hname⟩
    have hany : ((run_hero_ops init ops).any fun h => decide (h.hero_name = name)) = true :=
      List.any_eq_true.2 ⟨h, hmem, decide_eq_true hname⟩
    unfold add_hero
    rw [if_pos hany]
  · intro hero_id name team ⟨h, hmem, hcond⟩
    have hany : ((run_hero_ops init ops).any
        fun h => decide (h.hero_id ≠ hero_id ∧ h.hero_name = name)) = true :=
      List.any_eq_true.2 ⟨h, hmem, decide_eq_true hcond⟩
    unfold update_hero
    rw [if_pos hany]

/-- Witness for C9: two adds, a duplicate add, an update and a delete. -/
theorem C9_hero_name_uniqueness_witness :
    HeroInv (run_hero_ops []
      [HeroOp.add "Ana" "T", HeroOp.add "Bruno" "U", HeroOp.add "Ana" "V",
       HeroOp.upd 1 "Bruno" "W", HeroOp.del 2]) :=
  (C9_hero_name_uniqueness [] _ List.Pairwise.nil).1

/-! ## Lemmas about the sorting and grouping machinery -/

/-- `insert_desc` builds a permutation of consing. -/
lemma insert_desc_perm {β : Type} (x : β × Int) (l : List (β × Int)) :
    List.Perm (insert_desc x l) (x :: l) := by
  induction l with
  | nil => exact List.Perm.refl _
  | cons y t ih =>
    unfold insert_desc
    by_cases h : y.2 ≤ x.2
    · rw [if_pos h]
    · rw [if_neg h]
      exact (List.Perm.cons y ih).trans (List.Perm.swap x y t)

/-- `sort_desc` permutes its input. -/
lemma sort_desc_perm {β : Type} (l : List (β × Int)) : List.Perm (sort_desc l) l := by
  induction l with
  | nil => exact List.Perm.refl _
  | cons x t ih => exact (insert_desc_perm x (sort_desc t)).trans (List.Perm.cons x ih)

/-- `insert_desc` keeps the totals non-increasing. -/
lemma insert_desc_sorted {β : Type} (x : β × Int) (l : List (β × Int))
    (h : l.Pairwise fun a b => b.2 ≤ a.2) :
    (insert_desc x l).Pairwise fun a b => b.2 ≤ a.2 := by
  induction l with
  | nil => exact List.pairwise_singleton _ _
  | cons y t ih =>
    unfold insert_desc
    by_cases hy : y.2 ≤ x.2
    · rw [if_pos hy]
      refine List.pairwise_cons.2 ⟨?_, h⟩
      intro b hb
      rcases List.mem_cons.1 hb with rfl | hbt
      · exact hy
      · exact le_trans (List.rel_of_pairwise_cons h hbt) hy
    · rw [if_neg hy]
      refine List.pairwise_cons.2 ⟨?_, ih (List.Pairwise.of_cons h)⟩
      intro b hb
      rcases List.mem_cons.1 ((insert_desc_perm x t).mem_iff.1 hb) with rfl | hbt
      · exact le_of_not_le hy
      · exact List.rel_of_pairwise_cons h hbt

/-- The output of `sort_desc` has non-increasing totals. -/
lemma sort_desc_sorted {β : Type} (l : List (β × Int)) :
    (sort_desc l).Pairwise fun a b => b.2 ≤ a.2 := by
  induction l with
  | nil => exact List.Pairwise.nil
  | cons x t ih => exact insert_desc_sorted x (sort_desc t) ih

/-- `insert_desc` never reorders a tied block: the rows with any given
total are the inserted row (when it carries that total) followed by the
old rows with that total, in their old order. -/
lemma ties_at_insert_desc {β : Type} (v : Int) (x : β × Int) (l : List (β × Int)) :
    ties_at v (insert_desc x l) =
      if x.2 = v then x :: ties_at v l else ties_at v l := by
  induction l with
  | nil =>
    by_cases hx : x.2 = v <;> simp [ties_at, insert_desc, List.filter_cons, hx]
  | cons y t ih =>
    unfold insert_desc
    by_cases hy : y.2 ≤ x.2
    · rw [if_pos hy]
      by_cases hx : x.2 = v <;> simp [ties_at, List.filter_cons, hx]
    · rw [if_neg hy]
      by_cases hx : x.2 = v
      · have hyv : ¬(y.2 = v) := by
          intro hv
          exact hy (le_of_eq (hv.trans hx.symm))
        simp only [ties_at, List.filter_cons, decide_eq_true_eq] at ih ⊢
        simp [hyv, hx, ih]
      · simp only [ties_at, List.filter_cons, decide_eq_true_eq] at ih ⊢
        by_cases hyv : y.2 = v <;> simp [hyv, hx, ih]

/-- `sort_desc` is stable: it keeps every tied block in input order. -/
lemma ties_at_sort_desc {β : Type} (v : Int) (l : List (β × Int)) :
    ties_at v (sort_desc l) = ties_at v l := by
  induction l with
  | nil => rfl
  | cons x t ih =>
    show ties_at v (insert_desc x (sort_desc t)) = ties_at v (x :: t)
    rw [ties_at_insert_desc]
    by_cases hx : x.2 = v <;>
      simp only [ties_at, List.filter_cons, decide_eq_true_eq] at ih ⊢ <;>
      simp [hx, ih]

/-- Membership through `insert_sorted_key`. -/
lemma mem_insert_sorted_key {β : Type} [DecidableEq β] (lt : β → β → Bool) (k a : β)
    (l : List β) : a ∈ insert_sorted_key lt k l ↔ a = k ∨ a ∈ l := by
  induction l with
  | nil => simp [insert_sorted_key]
  | cons y t ih =>
    unfold insert_sorted_key
    by_cases h1 : k = y
    · subst h1
      rw [if_pos rfl]
      simp only [List.mem_cons]
      tauto
    · rw [if_neg h1]
      by_cases h2 : lt k y = true
      · rw [if_pos h2]
        simp only [List.mem_cons]
      · rw [if_neg h2]
        simp only [List.mem_cons, ih]
        tauto

/-- Membership through `sorted_keys`. -/
lemma mem_sorted_keys {β : Type} [DecidableEq β] (lt : β → β → Bool) (l : List β) (a : β) :
    a ∈ sorted_keys lt l ↔ a ∈ l := by
  induction l with
  | nil => simp [sorted_keys]
  | cons k t ih =>
    simp only [sorted_keys, mem_insert_sorted_key, ih, List.mem_cons]

/-- With a transitive, connected comparison, `insert_sorted_key` keeps
the key list strictly ascending. -/
lemma pairwise_insert_sorted_key {β : Type} [DecidableEq β] (lt : β → β → Bool)
    (htr : ∀ a b c, lt a b = true → lt b c = true → lt a c = true)
    (hconn : ∀ a b, a ≠ b → lt a b = true ∨ lt b a = true) (k : β) (l : List β)
    (h : l.Pairwise fun a b => lt a b = true) :
    (insert_sorted_key lt k l).Pairwise fun a b => lt a b = true := by
  induction l with
  | nil => exact List.pairwise_singleton _ _
  | cons y t ih =>
    unfold insert_sorted_key
    by_cases h1 : k = y
    · rw [if_pos h1]
      exact h
    · rw [if_neg h1]
      by_cases h2 : lt k y = true
      · rw [if_pos h2]
        refine List.pairwise_cons.2 ⟨?_, h⟩
        intro b hb
        rcases List.mem_cons.1 hb with rfl | hbt
        · exact h2
        · exact htr _ _ _ h2 (List.rel_of_pairwise_cons h hbt)
      · rw [if_neg h2]
        refine List.pairwise_cons.2 ⟨?_, ih (List.Pairwise.of_cons h)⟩
        intro b hb
        rcases (mem_insert_sorted_key lt k b t).1 hb with rfl | hbt
        · exact (hconn b y h1).resolve_left h2
        · exact List.rel_of_pairwise_cons h hbt

/-- With a transitive, connected comparison, `sorted_keys` is strictly
ascending. -/
lemma pairwise_sorted_keys {β : Type} [DecidableEq β] (lt : β → β → Bool)
    (htr : ∀ a b c, lt a b = true → lt b c = true → lt a c = true)
    (hconn : ∀ a b, a ≠ b → lt a b = true ∨ lt b a = true) (l : List β) :
    (sorted_keys lt l).Pairwise fun a b => lt a b = true := by
  induction l with
  | nil => exact List.Pairwise.nil
  | cons k t ih => exact pairwise_insert_sorted_key lt htr hconn k _ ih

/-- With an additionally irreflexive comparison, the key list has no
duplicates. -/
lemma nodup_sorted_keys {β : Type} [DecidableEq β] (lt : β → β → Bool)
    (htr : ∀ a b c, lt a b = true → lt b c = true → lt a c = true)
    (hconn : ∀ a b, a ≠ b → lt a b = true ∨ lt b a = true)
    (hirr : ∀ a, lt a a = false) (l : List β) : (sorted_keys lt l).Nodup :=
  (pairwise_sorted_keys lt htr hconn l).imp fun {a b} hab heq => by
    subst heq
    rw [hirr a] at hab
    cases hab

/-- Summing a constant zero. -/
lemma sum_map_const_zero {β : Type} (K : List β) : (K.map fun _ => (0 : Int)).sum = 0 := by
  induction K with
  | nil => rfl
  | cons k t ih => simp [ih]

/-- Summing pointwise sums. -/
lemma sum_map_add_int {β : Type} (K : List β) (f g : β → Int) :
    (K.map fun k => f k + g k).sum = (K.map f).sum + (K.map g).sum := by
  induction K with
  | nil => rfl
  | cons k t ih =>
    simp only [List.map_cons, List.sum_cons, ih]
    ring

/-- Summing an indicator over a duplicate-free list containing the hit. -/
lemma sum_map_ite_eq {β : Type} [DecidableEq β] (K : List β) (a : β) (c : Int)
    (hnd : K.Nodup) (ha : a ∈ K) :
    (K.map fun k => if a = k then c else 0).sum = c := by
  induction K with
  | nil => cases ha
  | cons k t ih =>
    rcases List.mem_cons.1 ha with rfl | hat
    · have hnotin : a ∉ t := (List.nodup_cons.1 hnd).1
      have hz : (t.map fun k => if a = k then c else 0) = t.map fun _ => (0 : Int) :=
        List.map_congr_left fun x hx => if_neg fun he => hnotin (by rw [he]; exact hx)
      simp [hz, sum_map_const_zero]
    · have hka : a ≠ k := fun he => (List.nodup_cons.1 hnd).1 (he ▸ hat)
      simp [hka, ih (List.nodup_cons.1 hnd).2 hat]

/-- Grouping partitions the sum: over any duplicate-free key list that
covers every row, the group totals add up to the plain total. -/
lemma sum_grouped {α β : Type} [DecidableEq β] (key : α → β) (val : α → Int) :
    ∀ (l : List α) (K : List β), K.Nodup → (∀ r ∈ l, key r ∈ K) →
      (K.map fun k => ((l.filter fun r => decide (key r = k)).map val).sum).sum =
        (l.map val).sum := by
  intro l
  induction l with
  | nil =>
    intro K _ _
    simp [sum_map_const_zero]
  | cons r t ih =>
    intro K hnd hcov
    have hstep : ∀ k ∈ K,
        (((r :: t).filter fun x => decide (key x = k)).map val).sum =
          (if key r = k then val r else 0) +
            ((t.filter fun x => decide (key x = k)).map val).sum := by
      intro k _
      by_cases h : key r = k
      · simp [List.filter_cons, h]
      · simp [List.filter_cons, h]
    rw [List.map_congr_left hstep, sum_map_add_int,
      sum_map_ite_eq K (key r) (val r) hnd (hcov r (List.mem_cons_self r t)),
      ih K hnd fun x hx => hcov x (List.mem_cons_of_mem _ hx)]
    simp

/-- `strLtCore` at two cons cells. -/
lemma strLtCore_cons (a b : Char) (as bs : List Char) :
    strLtCore (a :: as) (b :: bs) =
      if charN a < charN b then true
      else if charN b < charN a then false
      else strLtCore as bs := rfl

/-- `strLtCore` is transitive. -/
lemma strLtCore_trans : ∀ as bs cs : List Char, strLtCore as bs = true →
    strLtCore bs cs = true → strLtCore as cs = true := by
  intro as
  induction as with
  | nil =>
    intro bs cs h1 h2
    cases bs with
    | nil => cases h1
    | cons b bs =>
      cases cs with
      | nil => cases h2
      | cons c cs => rfl
  | cons a as ih =>
    intro bs cs h1 h2
    cases bs with
    | nil => cases h1
    | cons b bs =>
      cases cs with
      | nil => cases h2
      | cons c cs =>
        rw [strLtCore_cons] at h1 h2 ⊢
        by_cases hab : charN a < charN b <;> by_cases hbc : charN b < charN c
        · rw [if_pos (lt_trans hab hbc)]
        · simp only [hbc, if_false] at h2
          by_cases hcb : charN c < charN b
          · rw [if_pos hcb] at h2
            cases h2
          · have hbceq : charN b = charN c := le_antisymm (le_of_not_lt hcb) (le_of_not_lt hbc)
            rw [if_pos (hbceq ▸ hab)]
        · simp only [hab, if_false] at h1
          by_cases hba : charN b < charN a
          · rw [if_pos hba] at h1
            cases h1
          · have habeq : charN a = charN b := le_antisymm (le_of_not_lt hba) (le_of_not_lt hab)
            rw [if_pos (habeq ▸ hbc)]
        · simp only [hab, if_false] at h1
          simp only [hbc, if_false] at h2
          by_cases hba : charN b < charN a
          · rw [if_pos hba] at h1
            cases h1
          · by_cases hcb : charN c < charN b
            · rw [if_pos hcb] at h2
              cases h2
            · rw [if_neg hba] at h1
              rw [if_neg hcb] at h2
              have habeq : charN a = charN b := le_antisymm (le_of_not_lt hba) (le_of_not_lt hab)
              have hbceq : charN b = charN c := le_antisymm (le_of_not_lt hcb) (le_of_not_lt hbc)
              rw [if_neg (by rw [habeq, hbceq]; exact lt_irrefl _),
                if_neg (by rw [habeq, hbceq]; exact lt_irrefl _)]
              exact ih bs cs h1 h2

/-- Equal code points mean equal characters. -/
lemma charN_inj (a b : Char) (h : charN a = charN b) : a = b :=
  Char.eq_of_val_eq (UInt32.ext h)

/-- `strLtCore` is connected. -/
lemma strLtCore_conn : ∀ as bs : List Char, as ≠ bs →
    strLtCore as bs = true ∨ strLtCore bs as = true := by
  intro as
  induction as with
  | nil =>
    intro bs h
    cases bs with
    | nil => exact absurd rfl h
    | cons b bs => exact Or.inl rfl
  | cons a as ih =>
    intro bs h
    cases bs with
    | nil => exact Or.inr rfl
    | cons b bs =>
      rw [strLtCore_cons, strLtCore_cons]
      by_cases hab : charN a < charN b
      · rw [if_pos hab]
        exact Or.inl rfl
      · by_cases hba : charN b < charN a
        · exact Or.inr (by rw [if_pos hba])
        · have habeq : charN a = charN b := le_antisymm (le_of_not_lt hba) (le_of_not_lt hab)
          have haeqb : a = b := charN_inj a b habeq
          subst haeqb
          have htail : as ≠ bs := fun he => h (by rw [he])
          simp only [if_neg hab]
          exact ih bs htail

/-- `strLtCore` is irreflexive. -/
lemma strLtCore_irrefl : ∀ as : List Char, strLtCore as as = false := by
  intro as
  induction as with
  | nil => rfl
  | cons a as ih => rw [strLtCore_cons, if_neg (lt_irrefl _), if_neg (lt_irrefl _)]; exact ih

/-- Equal character data means equal strings. -/
lemma string_data_inj (a b : String) (h : a.data = b.data) : a = b :=
  congrArg String.mk h

/-- `strLtb` is transitive. -/
lemma strLtb_trans (a b c : String) (h1 : strLtb a b = true) (h2 : strLtb b c = true) :
    strLtb a c = true :=
  strLtCore_trans a.data b.data c.data h1 h2

/-- `strLtb` is connected. -/
lemma strLtb_conn (a b : String) (h : a ≠ b) : strLtb a b = true ∨ strLtb b a = true :=
  strLtCore_conn a.data b.data fun he => h (string_data_inj a b he)

/-- `strLtb` is irreflexive. -/
lemma strLtb_irrefl (a : String) : strLtb a a = false :=
  strLtCore_irrefl a.data

/-- `pairLtb` is transitive. -/
lemma pairLtb_trans (a b c : String × String) (h1 : pairLtb a b = true)
    (h2 : pairLtb b c = true) : pairLtb a c = true := by
  simp only [pairLtb, Bool.or_eq_true, Bool.and_eq_true, decide_eq_true_eq] at h1 h2 ⊢
  rcases h1 with h1 | ⟨h1e, h1l⟩ <;> rcases h2 with h2 | ⟨h2e, h2l⟩
  · exact Or.inl (strLtb_trans _ _ _ h1 h2)
  · exact Or.inl (h2e ▸ h1)
  · exact Or.inl (h1e ▸ h2)
  · exact Or.inr ⟨h1e.trans h2e, strLtb_trans _ _ _ h1l h2l⟩

/-- `pairLtb` is connected. -/
lemma pairLtb_conn (a b : String × String) (h : a ≠ b) :
    pairLtb a b = true ∨ pairLtb b a = true := by
  simp only [pairLtb, Bool.or_eq_true, Bool.and_eq_true, decide_eq_true_eq]
  by_cases h1 : a.1 = b.1
  · have h2 : a.2 ≠ b.2 := fun he => h (Prod.ext h1 he)
    rcases strLtb_conn a.2 b.2 h2 with hl | hl
    · exact Or.inl (Or.inr ⟨h1, hl⟩)
    · exact Or.inr (Or.inr ⟨h1.symm, hl⟩)
  · rcases strLtb_conn a.1 b.1 h1 with hl | hl
    · exact Or.inl (Or.inl hl)
    · exact Or.inr (Or.inl hl)

/-- `pairLtb` is irreflexive. -/
lemma pairLtb_irrefl (a : String × String) : pairLtb a a = false := by
  simp [pairLtb, strLtb_irrefl]

/-! ## The ranking claims -/

/-- The grouped ranking table is pairwise ascending on its keys. -/
lemma ranking_groups_pairwise (df : List DashRow) :
    (ranking_groups df).Pairwise fun a b => pairLtb a.1 b.1 = true := by
  unfold ranking_groups group_sums
  exact List.pairwise_map.2
    (pairwise_sorted_keys pairLtb pairLtb_trans pairLtb_conn _)

/-- **C5.** For every collection of nomination records, the ranking is a
permutation of the rows obtained by grouping the input by (nominee, team)
and summing rewards, its total-reward column is non-increasing, and the
sum of all ranking totals equals the KPI total reward over the same
records. -/
theorem C5_ranking_perm_sorted_sum (df : List DashRow) :
    List.Perm (ranking df) (ranking_groups df) ∧
    (ranking df).Pairwise (fun a b => b.2 ≤ a.2) ∧
    ((ranking df).map (·.2)).sum = kpi_total_crystals df := by
  refine ⟨sort_desc_perm _, sort_desc_sorted _, ?_⟩
  have hperm : ((ranking df).map (·.2)).sum = ((ranking_groups df).map (·.2)).sum :=
    ((sort_desc_perm (ranking_groups df)).map (·.2)).sum_eq
  rw [hperm]
  unfold ranking_groups group_sums kpi_total_crystals
  rw [List.map_map]
  exact sum_grouped (fun r => (r.hero_name, r.hero_team)) (·.crystals_reward) df _
    (nodup_sorted_keys pairLtb pairLtb_trans pairLtb_conn pairLtb_irrefl _)
    fun r hr => (mem_sorted_keys pairLtb _ _).2 (List.mem_map_of_mem _ hr)

/-- **C6 counterexample.** Two (nominee, team) groups are tied at total 5;
the group of `Zara` appears first in the input, yet the ranking lists
`Ana` first: ties follow the alphabetical key order of the grouping step,
not first-appearance input order, so the ranking differs from the
first-appearance ranking the claim describes. -/
theorem C6_counterexample :
    ranking ties_example = [(("Ana", "T"), 5), (("Zara", "T"), 5)] ∧
    ranking_first_appearance ties_example = [(("Zara", "T"), 5), (("Ana", "T"), 5)] ∧
    ranking ties_example ≠ ranking_first_appearance ties_example := by
  decide

/-- **C6 amended.** Group totals that tie are ordered by ascending
lexicographic (nominee, team) key — the order produced by the grouping
step — rather than by first-appearance input order: in every tied block
of the ranking the keys are strictly ascending. -/
theorem C6_amended_ties_alphabetical (df : List DashRow) (v : Int) :
    (ties_at v (ranking df)).Pairwise fun a b => pairLtb a.1 b.1 = true := by
  have h : ties_at v (ranking df) = ties_at v (ranking_groups df) :=
    ties_at_sort_desc v (ranking_groups df)
  rw [h]
  exact List.Pairwise.sublist (List.filter_sublist _) (ranking_groups_pairwise df)

/-! ## The flow-graph claims -/

/-- Every row of a grouped table carries one distinct input key and the
sum of the values at that key. -/
lemma group_sums_mem {α β : Type} [DecidableEq β] (lt : β → β → Bool) (key : α → β)
    (val : α → Int) (l : List α) (e : β × Int) (he : e ∈ group_sums lt key val l) :
    e.1 ∈ l.map key ∧ e.2 = ((l.filter fun r => decide (key r = e.1)).map val).sum := by
  unfold group_sums at he
  rw [List.mem_map] at he
  obtain ⟨k, hk, rfl⟩ := he
  exact ⟨(mem_sorted_keys lt _ k).1 hk, rfl⟩

/-- Key equality on (nominator, pillar) pairs, componentwise. -/
lemma np_key_pred (a : String × String) (r : DashRow) :
    decide ((r.nominator_name, r.pillar_name) = a) =
      decide (r.nominator_name = a.1 ∧ r.pillar_name = a.2) := by
  apply decide_eq_decide.2
  constructor
  · intro h
    rw [← h]
    exact ⟨rfl, rfl⟩
  · intro ⟨h1, h2⟩
    rw [Prod.ext_iff]
    exact ⟨h1, h2⟩

/-- Key equality on (pillar, nominee) pairs, componentwise. -/
lemma pn_key_pred (a : String × String) (r : DashRow) :
    decide ((r.pillar_name, r.hero_name) = a) =
      decide (r.pillar_name = a.1 ∧ r.hero_name = a.2) := by
  apply decide_eq_decide.2
  constructor
  · intro h
    rw [← h]
    exact ⟨rfl, rfl⟩
  · intro ⟨h1, h2⟩
    rw [Prod.ext_iff]
    exact ⟨h1, h2⟩

/-- A retained nominator edge is a row of the grouped, filtered
nominator-pillar table: its source is a top nominator and its weight is
the unrestricted (nominator, pillar) pair sum. -/
lemma edges1_weight (df : List DashRow) (top_n : Nat) (e : (String × String) × Int)
    (he : e ∈ edges1 df top_n) :
    e.1.1 ∈ top_nominators df top_n ∧ e.2 = pair_sum_np df e.1.1 e.1.2 := by
  rw [edges1, List.mem_filter] at he
  obtain ⟨hf, _⟩ := he
  rw [np_filtered, List.mem_filter] at hf
  obtain ⟨hnp, htop⟩ := hf
  refine ⟨of_decide_eq_true htop, ?_⟩
  have hsum := (group_sums_mem pairLtb _ _ df e hnp).2
  rw [hsum, pair_sum_np]
  congr 1
  exact congrArg _ (List.filter_congr fun r _ => np_key_pred e.1 r)

/-- **C7 counterexample.** With nominator A rewarding nominees X (5) and
Y (7) through pillar P and N = 1, the top nominee set is {Y} only, yet
the retained A-to-P edge weighs 12 = 5 + 7: the code does not restrict
nominator-edge weights to records whose nominee is in the top-N nominee
set, so the claimed both-sets restriction (which would give 7) is false. -/
theorem C7_counterexample :
    ¬ (∀ e ∈ edges1 sankey_example 1,
        e.2 = claimed_np_edge_weight sankey_example 1 e.1.1 e.1.2) := by
  decide

/-- **C7 amended.** For every input and every N: a pillar node appears
only if it appears in at least one retained (nominator, pillar) edge; each
(nominator, pillar) edge weight is the sum of rewards over ALL records
with that nominator and pillar, restricted only by the nominator being in
the top-N nominator set; and each (pillar, nominee) edge stems from a row
whose weight is the sum of rewards over ALL records with that pillar and
nominee, restricted only by the nominee being in the top-N nominee set and
the pillar being among the retained pillars. -/
theorem C7_amended_per_tier_weights (df : List DashRow) (top_n : Nat) :
    (∀ p ∈ pillars_list df top_n, ∃ e ∈ edges1 df top_n, e.1.2 = p) ∧
    (∀ e ∈ edges1 df top_n,
      e.1.1 ∈ top_nominators df top_n ∧ e.2 = pair_sum_np df e.1.1 e.1.2) ∧
    (∀ e ∈ edges2 df top_n, ∃ kp ∈ pn_filtered2 df top_n,
      e.1.1 = kp.1.1 ∧ e.2 = kp.2 ∧ unique_for df top_n kp.1.2 = some e.1.2 ∧
      kp.1.2 ∈ top_nominees df top_n ∧ kp.1.1 ∈ pillars_list df top_n ∧
      kp.2 = pair_sum_pn df kp.1.1 kp.1.2) := by
  refine ⟨?_, fun e he => edges1_weight df top_n e he, ?_⟩
  · intro p hp
    rw [pillars_list, List.mem_map] at hp
    obtain ⟨q, hq, rfl⟩ := hp
    have hq2 : q ∈ group_sums strLtb (fun kp => kp.1.2) (fun kp => kp.2)
        (np_filtered df top_n) := (sort_desc_perm _).mem_iff.1 hq
    have hkey := (group_sums_mem strLtb _ _ _ q hq2).1
    rw [List.mem_map] at hkey
    obtain ⟨kp, hkp, hkpq⟩ := hkey
    refine ⟨kp, ?_, hkpq⟩
    rw [edges1, List.mem_filter]
    refine ⟨hkp, ?_⟩
    rw [np_filtered, List.mem_filter] at hkp
    rw [Bool.and_eq_true, decide_eq_true_eq, decide_eq_true_eq]
    constructor
    · exact List.mem_append.2
        (Or.inl (List.mem_append.2 (Or.inl (of_decide_eq_true hkp.2))))
    · refine List.mem_append.2 (Or.inl (List.mem_append.2 (Or.inr ?_)))
      rw [pillars_list, List.mem_map]
      exact ⟨q, hq, hkpq.symm⟩
  · intro e he
    rw [edges2, List.mem_filterMap] at he
    obtain ⟨kp, hkp, hf⟩ := he
    refine ⟨kp, hkp, ?_⟩
    have hkp2 := hkp
    rw [pn_filtered2, List.mem_filter] at hkp2
    obtain ⟨hpf, hpil⟩ := hkp2
    rw [pn_filtered, List.mem_filter] at hpf
    obtain ⟨hpn, htop⟩ := hpf
    have hsum := (group_sums_mem pairLtb _ _ df kp hpn).2
    by_cases hc1 : kp.1.1 ∈ all_nodes df top_n
    · rw [if_pos hc1] at hf
      cases huf : unique_for df top_n kp.1.2 with
      | none => rw [huf] at hf; cases hf
      | some u =>
        rw [huf] at hf
        dsimp only at hf
        by_cases hc2 : u ∈ all_nodes df top_n
        · rw [if_pos hc2] at hf
          have he : e = ((kp.1.1, u), kp.2) := (Option.some.inj hf).symm
          subst he
          refine ⟨rfl, rfl, rfl, of_decide_eq_true htop, of_decide_eq_true hpil, ?_⟩
          rw [hsum, pair_sum_pn]
          congr 1
          exact congrArg _ (List.filter_congr fun r _ => pn_key_pred kp.1 r)
        · rw [if_neg hc2] at hf
          cases hf
    · rw [if_neg hc1] at hf
      cases hf

/-- **C8.** Whenever the top-N restriction retains no link at all — in
particular on empty input or when N = 0 — the flow-graph aggregation
returns the explicitly-empty result (the page prints a message and builds
nothing): it raises no exception and returns no zero-node graph. -/
theorem C8_no_edges_explicit_empty (df : List DashRow) (top_n : Nat)
    (h1 : edges1 df top_n = []) (h2 : edges2 df top_n = []) :
    show_sankey_diagram df top_n = none := by
  unfold show_sankey_diagram
  by_cases hdf : df = []
  · rw [if_pos hdf]
  · rw [if_neg hdf, if_pos ⟨h1, h2⟩]

/-- Witness for C8: nonempty input, N = 0. -/
theorem C8_no_edges_explicit_empty_witness :
    show_sankey_diagram sankey_example 0 = none :=
  C8_no_edges_explicit_empty sankey_example 0 (by decide) (by decide)

end GemsBank
